import Mathlib

/-!
Verification of the js8d `libjs8dsp` signal-processing core against its
natural-language specification.

The development shallowly embeds the relevant functions of
`js8_encoder.cpp` and `src/js8_decoder.cpp`:

* the CRC-12 table generator, the table-driven `compute_crc12`, and the
  CRC embedding performed by `js8_encode_message` (lines 27-57, 131-136);
* the 6-bit alphabet lookup (`alphabet_word`), the 4-characters-to-3-bytes
  packing, the frame-type byte, and the placeholder parity generator
  `get_parity_bit` together with the tone-array assembly of
  `js8_encode_message` (lines 59-191);
* the candidate-scan loop of `JS8Decoder::find_candidates`
  (lines 209-228), with the dB-domain spectrum and baseline values taken
  as inputs (the floating-point spectral pipeline that produces them is a
  separate component);
* the per-candidate control flow of `JS8Decoder::decode_buffer`
  (lines 250-374), with the numeric stages (downsample size, best Costas
  sync score, symbol extraction success, BP decoder status) taken as the
  outcome record of a candidate;
* the hard-decision LLR assignment of `decode_buffer` (lines 300-315)
  and the heterodyne/decimation of `downsample_signal` (lines 80-98),
  the latter over ℝ/ℂ in place of `float`/`complex<float>`.

Machine integers are modelled as ℕ with explicit masking, exactly where
the C code masks.  Definitions named after C symbols are direct
translations of those functions.
-/

set_option maxRecDepth 10000

namespace JS8

/-! ### CRC-12 (js8_encoder.cpp lines 22-57) -/

/-- One shift step of the CRC-12 table generator (inner loop of
`init_crc12_table`): shift left, XOR the polynomial `0xc06` when bit 11
was set, keep 12 bits. -/
def crc12_step (crc : ℕ) : ℕ :=
  (if crc &&& 0x800 ≠ 0 then (crc <<< 1) ^^^ 0xc06 else crc <<< 1) &&& 0xfff

/-- `crc12_table[i]` from `init_crc12_table`: start from `i << 4`, apply
eight shift steps. -/
def crc12_table (i : ℕ) : ℕ :=
  crc12_step (crc12_step (crc12_step (crc12_step
    (crc12_step (crc12_step (crc12_step (crc12_step (i <<< 4))))))))

/-- One byte of the table-driven loop in `compute_crc12`:
`crc = ((crc << 8) ^ crc12_table[((crc >> 4) ^ data[i]) & 0xff]) & 0xfff`. -/
def crc12_byte (crc b : ℕ) : ℕ :=
  ((crc <<< 8) ^^^ crc12_table (((crc >>> 4) ^^^ b) &&& 0xff)) &&& 0xfff

/-- `compute_crc12`: fold the byte step over the data starting from 0,
then XOR with 42 (`return crc ^ 42`). -/
def compute_crc12 (data : List ℕ) : ℕ :=
  (data.foldl crc12_byte 0) ^^^ 42

/-- CRC embedding of `js8_encode_message` lines 135-136:
`bytes[9] |= (crc >> 7) & 0x1F; bytes[10] = (crc & 0x7F) << 1;`. -/
def embed_crc (buf : List ℕ) (v : ℕ) : List ℕ :=
  buf.take 9 ++ [buf.getD 9 0 ||| ((v >>> 7) &&& 0x1F), (v &&& 0x7F) <<< 1]

/-- Reading the 12-bit CRC field back out of a framed buffer: byte 9's
bottom 5 bits are the top bits, byte 10's bits 1..7 the bottom bits. -/
def extract_crc (buf : List ℕ) : ℕ :=
  ((buf.getD 9 0 &&& 0x1F) <<< 7) ||| (buf.getD 10 0 >>> 1)

/-! ### Alphabet and character packing (js8_encoder.cpp lines 8-84, 115-128) -/

/-- The 64-symbol JS8 alphabet (`js8_alphabet`). -/
def js8_alphabet : List Char :=
  "0123456789ABCDEFGHIJKLMNOPQRSTUVWXYZabcdefghijklmnopqrstuvwxyz-+".toList

/-- `alphabet_word`: index of a character in the alphabet, `none` for the
`0xff` table miss that makes the C function throw.  The lookup table is
filled with `table[js8_alphabet[i]] = i` over distinct characters, which
is the first-index search below. -/
def alphabetWord? (c : Char) : Option ℕ :=
  js8_alphabet.findIdx? (fun a => a = c)

/-- `words = (a0 << 18) | (a1 << 12) | (a2 << 6) | a3` (line 120-123). -/
def word4 (a b c d : ℕ) : ℕ := (a <<< 18) ||| (b <<< 12) ||| (c <<< 6) ||| d

/-- The three bytes stored from one 24-bit word (lines 125-127); the
`&&& 0xff` is the `uint8_t` truncation of the stores. -/
def wordBytes (w : ℕ) : List ℕ := [(w >>> 16) &&& 0xff, (w >>> 8) &&& 0xff, w &&& 0xff]

/-- The packing loop of lines 116-128: four characters at a time become
three bytes; an out-of-alphabet character aborts (the C code throws from
`alphabet_word`).  The catch-all arm only fires for lengths that are not
multiples of four, which the length-12 guard of the caller rules out. -/
def packChars? : List Char → Option (List ℕ)
  | [] => some []
  | c0 :: c1 :: c2 :: c3 :: rest => do
      let a0 ← alphabetWord? c0
      let a1 ← alphabetWord? c1
      let a2 ← alphabetWord? c2
      let a3 ← alphabetWord? c3
      let tail ← packChars? rest
      pure (wordBytes (word4 a0 a1 a2 a3) ++ tail)
  | _ => none

/-- Lines 130-136: append byte 9 (`(type & 0x07) << 5`, CRC field still
zero, byte 10 zero from the `std::array` initialisation), compute the CRC
over the 11 bytes, and embed it into bytes 9 and 10. -/
def frameBytes (msgBytes : List ℕ) (type : ℕ) : List ℕ :=
  let crc := compute_crc12 (msgBytes ++ [(type &&& 0x07) <<< 5, 0])
  msgBytes ++ [((type &&& 0x07) <<< 5) ||| ((crc >>> 7) &&& 0x1F), (crc &&& 0x7F) <<< 1]

/-- Bit `j` of the byte buffer in the MSB-first order walked by the
`output_mask` (start `0x80`, shift right, next byte on wrap) of
lines 152-174. -/
def msgBit (bytes : List ℕ) (j : ℕ) : ℕ :=
  ((bytes.getD (j / 8) 0) >>> (7 - j % 8)) &&& 1

/-- `get_parity_bit` (lines 88-92): the placeholder parity matrix
`((row * 13 + col * 17) % 3) == 0`. -/
def get_parity_bit (row col : ℕ) : Bool := (row * 13 + col * 17) % 3 == 0

/-- Parity bit `i` computed by the inner loop of lines 158-169: parity of
the count of message-bit positions `j` with `get_parity_bit i j` and
bit `j` set (`parity_bits & 1`). -/
def parityBit (bytes : List ℕ) (i : ℕ) : ℕ :=
  ((List.range 87).countP (fun j => get_parity_bit i j && (msgBit bytes j == 1))) % 2

/-- The `t`-th 3-bit parity tone: `parity_word` accumulates
`(word << 1) | bit` three times (lines 172, 177-183). -/
def parityWord (bytes : List ℕ) (t : ℕ) : ℕ :=
  4 * parityBit bytes (3 * t) + 2 * parityBit bytes (3 * t + 1) + parityBit bytes (3 * t + 2)

/-- The `t`-th 3-bit data tone, accumulated the same way from the message
bits (lines 173, 177-183). -/
def dataWord (bytes : List ℕ) (t : ℕ) : ℕ :=
  4 * msgBit bytes (3 * t) + 2 * msgBit bytes (3 * t + 1) + msgBit bytes (3 * t + 2)

/-- `costas_normal` (lines 16-20): the three identical Costas rows. -/
def costas_normal : List (List ℕ) :=
  [[4, 2, 5, 6, 1, 3, 0], [4, 2, 5, 6, 1, 3, 0], [4, 2, 5, 6, 1, 3, 0]]

/-- Value written at tone position `p` by lines 138-184: `costas_data`
starts at `tones` and advances by 36 after each 7-entry row, so the rows
land at 0-6, 36-42, 72-78; `parity_data` starts at `tones + 7` and
`output_data` at `tones + 43`, each post-incremented once per 3 bits, so
parity words land at 7-35 and data words at 43-71. -/
def toneAt (bytes : List ℕ) (p : ℕ) : ℕ :=
  if p < 7 then (costas_normal.getD 0 []).getD p 0
  else if p < 36 then parityWord bytes (p - 7)
  else if p < 43 then (costas_normal.getD 1 []).getD (p - 36) 0
  else if p < 72 then dataWord bytes (p - 43)
  else (costas_normal.getD 2 []).getD (p - 72) 0

/-- `js8_encode_message` (lines 95-191) for non-null pointers: result is
the returned status and the final contents of the caller's 79-entry tone
buffer (initial contents `tones0`).  A wrong length returns -1 before the
`memset`; an invalid character throws after the `memset` cleared the
buffer but before any tone is written, so the catch returns -1 with the
buffer all zero. -/
def js8_encode_message (message : List Char) (type : ℕ) (tones0 : List ℤ) : ℤ × List ℤ :=
  if message.length ≠ 12 then (-1, tones0)
  else match packChars? message with
    | none => (-1, List.replicate 79 0)
    | some msgBytes =>
        (79, (List.range 79).map (fun p => (toneAt (frameBytes msgBytes type) p : ℤ)))

/-- Buffer with only message bit `j` set (byte `j / 8` holds
`0x80 >> (j % 8)`). -/
def unitBuf (j : ℕ) : List ℕ :=
  (List.range 11).map (fun k => if k = j / 8 then 2 ^ (7 - j % 8) else 0)

/-! ### Candidate finder (src/js8_decoder.cpp lines 184-229)

The scan loop is translated with the per-bin signal level `sdb`
(`10*log10f(max(spectrum[bin], 1e-10))`) and baseline level `bdb`
(`baseline_[bin]`) as input functions; the floating-point spectral
pipeline that fills them is the separate baseline component. -/

/-- Emission test of the scan loop body: in the 200-3000 Hz band and more
than 3 dB above the baseline. -/
def candP (df : ℚ) (sdb bdb : ℕ → ℚ) (b : ℕ) : Bool :=
  !(decide ((b : ℚ) * df < 200 ∨ (b : ℚ) * df > 3000)) && decide (sdb b - bdb b > 3)

/-- The candidate record pushed for bin `b`: frequency `bin * df` and
`snr = signal_db - baseline_db`. -/
def candOf (df : ℚ) (sdb bdb : ℕ → ℚ) (b : ℕ) : ℚ × ℚ :=
  ((b : ℚ) * df, sdb b - bdb b)

/-- The `for` loop of lines 213-226: bins in ascending order, loop guard
`num_candidates < NMAXCAND` (300), out-of-band bins skipped, emission on
`snr > 3`. -/
def findLoop (df : ℚ) (sdb bdb : ℕ → ℚ) : List ℕ → List (ℚ × ℚ) → List (ℚ × ℚ)
  | [], acc => acc
  | bin :: rest, acc =>
      if acc.length < 300 then
        if (bin : ℚ) * df < 200 ∨ (bin : ℚ) * df > 3000 then findLoop df sdb bdb rest acc
        else if sdb bin - bdb bin > 3 then
          findLoop df sdb bdb rest (acc ++ [((bin : ℚ) * df, sdb bin - bdb bin)])
        else findLoop df sdb bdb rest acc
      else acc

/-- `find_candidates`: 2048 bins of width `sample_rate_ / freq_bins`. -/
def find_candidates (fs : ℚ) (sdb bdb : ℕ → ℚ) : List (ℚ × ℚ) :=
  findLoop (fs / 2048) sdb bdb (List.range 2048) []

/-- Concrete signal levels: two in-band bins above threshold, the second
stronger than the first. -/
def sdb0 (b : ℕ) : ℚ := if b = 40 then 4 else if b = 41 then 5 else 0

/-- Concrete flat baseline. -/
def bdb0 (_ : ℕ) : ℚ := 0

/-! ### Decode orchestration (src/js8_decoder.cpp lines 250-374)

The branch structure of the per-candidate body is translated with the
numeric stage results collected in an outcome record: whether the
downsampled buffer had at least `NN * ndownsps` samples, the best Costas
sync score and offset of the grid search, whether `extract_symbols`
succeeded, and the status returned by `bpdecode174`. -/

/-- Results of the numeric stages for one candidate. -/
structure CandOutcome where
  freq : ℚ
  snr : ℚ
  enoughData : Bool
  bestSync : ℚ
  bestOffset : ℕ
  extractOk : Bool
  bpResult : ℤ
  deriving DecidableEq

/-- Which of the three `snprintf` branches produced a message entry. -/
inductive EntryKind
  | decoded
  | decodeFailed
  | extractFailed
  deriving DecidableEq

/-- One filled `js8dsp_decoded_message_t`. -/
structure DecEntry where
  kind : EntryKind
  snr : ℚ
  freqOffset : ℚ
  timestamp : ℕ
  confidence : ℤ
  deriving DecidableEq

/-- `static_cast<int>` truncation toward zero of a rational. -/
def ratTrunc (q : ℚ) : ℤ := q.num / (q.den : ℤ)

/-- `ASYNCMIN = 1.5f` (js8_constants.h line 17). -/
def ASYNCMIN : ℚ := 3 / 2

/-- Entries appended for one candidate by lines 269-370: skip silently on
too little data or weak sync; with strong sync, write a `DECODED:` entry
on `decode_result >= 0`, a `JS8 SYNC ... (decode failed)` entry on a
negative BP status, and a `JS8 SYNC ... (symbol extraction failed)` entry
when extraction fails — each with `snr`, `freq - 1500`, the best offset,
and the branch's confidence value. -/
def processCandidate (oc : CandOutcome) : List DecEntry :=
  if ¬ oc.enoughData then []
  else if oc.bestSync > ASYNCMIN then
    if oc.extractOk then
      if oc.bpResult ≥ 0 then
        [⟨EntryKind.decoded, oc.snr, oc.freq - 1500, oc.bestOffset, 100 - oc.bpResult⟩]
      else
        [⟨EntryKind.decodeFailed, oc.snr, oc.freq - 1500, oc.bestOffset,
          ratTrunc (oc.bestSync * 10)⟩]
    else
      [⟨EntryKind.extractFailed, oc.snr, oc.freq - 1500, oc.bestOffset,
        ratTrunc (oc.bestSync * 5)⟩]
  else []

/-- The candidate loop of line 262: stops once `decoded_count` reaches
`max_messages`. -/
def decodeLoop (maxm : ℕ) : List CandOutcome → List DecEntry → List DecEntry
  | [], acc => acc
  | oc :: rest, acc =>
      if acc.length < maxm then decodeLoop maxm rest (acc ++ processCandidate oc)
      else acc

/-- `decode_buffer` for non-null pointers: -1 on `max_messages <= 0`,
otherwise the count of written entries and the entries themselves. -/
def decode_buffer (maxm : ℤ) (ocs : List CandOutcome) : ℤ × List DecEntry :=
  if maxm ≤ 0 then (-1, [])
  else ((decodeLoop maxm.toNat ocs []).length, decodeLoop maxm.toNat ocs [])

/-- A candidate with plenty of data, strong sync, successful symbol
extraction and a failed BP decode. -/
def oc0 : CandOutcome := ⟨1000, 5, true, 2, 0, true, -1⟩

/-! ### LLR assignment (src/js8_decoder.cpp lines 300-315) -/

/-- The LLR written at index `idx = 3*i + k` of the 174-entry array:
`+2.0` when bit `k` (MSB first) of symbol `i` is one, `-2.0` otherwise. -/
def llrArr (symbols : ℕ → ℕ) (idx : ℕ) : ℚ :=
  if (symbols (idx / 3) >>> (2 - idx % 3)) &&& 1 = 1 then 2 else -2

/-- Modelled from the spec: clip a soft value to ±19 (§4.10). -/
noncomputable def clip19 (x : ℝ) : ℝ := max (-19) (min 19 x)

/-- Modelled from the spec (§4.10): for bit position `k` of a symbol with
tone correlation powers `p`,
`LLR = log (Σ p over tones with bit k set) − log (Σ p over the rest)`,
clipped to ±19.  This computation appears nowhere in the source. -/
noncomputable def specLLR (p : Fin 8 → ℝ) (k : ℕ) : ℝ :=
  clip19 (Real.log (∑ t ∈ Finset.univ.filter (fun t : Fin 8 => ((t : ℕ) >>> (2 - k)) &&& 1 = 1), p t)
        - Real.log (∑ t ∈ Finset.univ.filter (fun t : Fin 8 => ¬(((t : ℕ) >>> (2 - k)) &&& 1 = 1)), p t))

/-! ### Downmix / decimate (src/js8_decoder.cpp lines 80-98) -/

/-- One heterodyned sample of `downsample_signal`:
`phase = 2π(center_freq − fs/2)·i/fs`, `shift = (cos phase, sin phase)`,
`sample = (audio[i], 0) * shift`. -/
noncomputable def heterodyne (x : List ℝ) (fc fs : ℝ) (n : ℕ) : ℂ :=
  (x.getD n 0 : ℂ) * (Complex.ofReal (Real.cos (2 * Real.pi * (fc - fs / 2) * n / fs))
    + Complex.I * Real.sin (2 * Real.pi * (fc - fs / 2) * n / fs))

/-- `downsample_signal`: the loop `for (i = 0; i < size; i += D)` keeps
the heterodyned samples at indices `0, D, 2D, …`. -/
noncomputable def downsample_signal (x : List ℝ) (fc fs : ℝ) (D : ℕ) : List ℂ :=
  (List.range ((x.length + D - 1) / D)).map (fun m => heterodyne x fc fs (m * D))

/-- Modelled from the spec (§4.8): `z[n] = x[n]·exp(−j·2π·(fc − fs/2)·n/fs)`. -/
noncomputable def spec_z (x : List ℝ) (fc fs : ℝ) (n : ℕ) : ℂ :=
  (x.getD n 0 : ℂ) * Complex.exp (-Complex.I * (2 * Real.pi * (fc - fs / 2) * n / fs))


/-! ## Helper lemmas -/

/-- `compute_crc12` always yields a 12-bit value. -/
theorem compute_crc12_lt (data : List ℕ) : compute_crc12 data < 4096 := by
  have h : ∀ l s, List.foldl crc12_byte s l = s ∨ List.foldl crc12_byte s l < 4096 := by
    intro l
    induction l with
    | nil => intro s; exact Or.inl rfl
    | cons b t ih =>
      intro s
      rcases ih (crc12_byte s b) with h1 | h1
      · have hb : crc12_byte s b < 4096 := by
          unfold crc12_byte
          exact Nat.and_lt_two_pow (n := 12) _ (by norm_num)
        right
        rw [List.foldl_cons, h1]
        exact hb
      · exact Or.inr (by simpa using h1)
  unfold compute_crc12
  rcases h data 0 with h1 | h1
  · rw [h1]; norm_num
  · exact Nat.xor_lt_two_pow (n := 12) h1 (by norm_num)

/-- An alphabet index is a 6-bit value. -/
theorem alphabetWord?_lt {ch : Char} {w : ℕ} (h : alphabetWord? ch = some w) : w < 64 := by
  unfold alphabetWord? at h
  have h2 := (List.findIdx?_eq_some_iff_findIdx_eq.mp h).1
  have h3 : js8_alphabet.length = 64 := rfl
  omega

/-- Four 6-bit values pack into 24 bits. -/
theorem word4_lt {a b c d : ℕ} (ha : a < 64) (hb : b < 64) (hc : c < 64) (hd : d < 64) :
    word4 a b c d < 2 ^ 24 := by
  unfold word4
  have h1 : a <<< 18 < 2 ^ 24 := by rw [Nat.shiftLeft_eq]; omega
  have h2 : b <<< 12 < 2 ^ 24 := by rw [Nat.shiftLeft_eq]; omega
  have h3 : c <<< 6 < 2 ^ 24 := by rw [Nat.shiftLeft_eq]; omega
  have h4 : d < 2 ^ 24 := by omega
  exact Nat.or_lt_two_pow (Nat.or_lt_two_pow (Nat.or_lt_two_pow h1 h2) h3) h4

/-- The three stored bytes recombine big-endian to the 24-bit word. -/
theorem bytes_recomb {w : ℕ} (hw : w < 2 ^ 24) :
    ((w >>> 16) &&& 0xff) * 65536 + ((w >>> 8) &&& 0xff) * 256 + (w &&& 0xff) = w := by
  have e255 : (0xff : ℕ) = 2 ^ 8 - 1 := by norm_num
  rw [Nat.shiftRight_eq_div_pow, Nat.shiftRight_eq_div_pow, e255,
      Nat.and_pow_two_sub_one_eq_mod, Nat.and_pow_two_sub_one_eq_mod,
      Nat.and_pow_two_sub_one_eq_mod]
  norm_num
  omega

/-- The top three bits of byte 9 recover the frame type. -/
theorem byte9_shift {t : ℕ} (ht : t < 32) (type : ℕ) :
    (((type &&& 7) <<< 5) ||| t) >>> 5 = type &&& 7 := by
  have h : (type &&& 7) <<< 5 = 2 ^ 5 * (type &&& 7) := by rw [Nat.shiftLeft_eq]; ring
  rw [h, ← Nat.mul_add_lt_is_or (by omega : t < 2 ^ 5), Nat.shiftRight_eq_div_pow]
  omega

/-- The bottom five bits of byte 9 recover the embedded value. -/
theorem byte9_low5 {t : ℕ} (ht : t < 32) (type : ℕ) :
    (((type &&& 7) <<< 5) ||| t) &&& 0x1F = t := by
  rw [Nat.and_distrib_right]
  have h1 : ((type &&& 7) <<< 5) &&& 0x1F = 0 := by
    rw [Nat.shiftLeft_eq, show (0x1F : ℕ) = 2 ^ 5 - 1 by norm_num,
      Nat.and_pow_two_sub_one_eq_mod]
    simp [Nat.mul_mod_left]
  have h2 : t &&& 0x1F = t := by
    rw [show (0x1F : ℕ) = 2 ^ 5 - 1 by norm_num, Nat.and_pow_two_sub_one_eq_mod]; omega
  rw [h1, h2]
  simp

/-- Recombining the 5-bit and 7-bit halves of a 12-bit value. -/
theorem split_5_7 {v : ℕ} (hv : v < 4096) :
    (((v >>> 7) &&& 0x1F) <<< 7) ||| (v &&& 0x7F) = v := by
  have e1 : (v >>> 7) &&& 0x1F = v / 128 := by
    rw [Nat.shiftRight_eq_div_pow, show (0x1F : ℕ) = 2 ^ 5 - 1 by norm_num,
      Nat.and_pow_two_sub_one_eq_mod]
    omega
  have e2 : v &&& 0x7F = v % 128 := by
    rw [show (0x7F : ℕ) = 2 ^ 7 - 1 by norm_num, Nat.and_pow_two_sub_one_eq_mod]
  rw [e1, e2, Nat.shiftLeft_eq,
    show v / 128 * 2 ^ 7 = 2 ^ 7 * (v / 128) by ring,
    ← Nat.mul_add_lt_is_or (by omega : v % 128 < 2 ^ 7)]
  omega

/-- A left shift by one is undone by a right shift by one. -/
theorem shiftl1_shiftr1 (x : ℕ) : (x <<< 1) >>> 1 = x := by
  rw [Nat.shiftLeft_eq, Nat.shiftRight_eq_div_pow]
  omega

/-- A value shifted left by one has bit 0 clear. -/
theorem shiftl1_even (x : ℕ) : (x <<< 1) &&& 1 = 0 := by
  rw [Nat.shiftLeft_eq, Nat.and_one_is_mod]
  omega

/-- `packChars?` on twelve valid characters: three packed words. -/
theorem packChars?_twelve {c0 c1 c2 c3 c4 c5 c6 c7 c8 c9 c10 c11 : Char}
    {a0 a1 a2 a3 a4 a5 a6 a7 a8 a9 a10 a11 : ℕ}
    (h0 : alphabetWord? c0 = some a0) (h1 : alphabetWord? c1 = some a1)
    (h2 : alphabetWord? c2 = some a2) (h3 : alphabetWord? c3 = some a3)
    (h4 : alphabetWord? c4 = some a4) (h5 : alphabetWord? c5 = some a5)
    (h6 : alphabetWord? c6 = some a6) (h7 : alphabetWord? c7 = some a7)
    (h8 : alphabetWord? c8 = some a8) (h9 : alphabetWord? c9 = some a9)
    (h10 : alphabetWord? c10 = some a10) (h11 : alphabetWord? c11 = some a11) :
    packChars? [c0, c1, c2, c3, c4, c5, c6, c7, c8, c9, c10, c11]
      = some (wordBytes (word4 a0 a1 a2 a3) ++ wordBytes (word4 a4 a5 a6 a7)
              ++ wordBytes (word4 a8 a9 a10 a11)) := by
  simp [packChars?, h0, h1, h2, h3, h4, h5, h6, h7, h8, h9, h10, h11]

/-- An out-of-alphabet character anywhere makes `packChars?` fail. -/
theorem packChars?_none {l : List Char} (h : ∃ ch ∈ l, alphabetWord? ch = none) :
    packChars? l = none := by
  induction l using packChars?.induct with
  | case1 => simp at h
  | case2 c0 c1 c2 c3 rest ih =>
    obtain ⟨ch, hmem, hbad⟩ := h
    simp only [List.mem_cons] at hmem
    rcases hmem with rfl | rfl | rfl | rfl | hmem
    · simp [packChars?, hbad]
    · simp [packChars?, hbad]
    · simp [packChars?, hbad]
    · simp [packChars?, hbad]
    · have := ih ⟨ch, hmem, hbad⟩
      simp [packChars?, this]
  | case3 l h1 h2 =>
    rcases l with _ | ⟨x0, _ | ⟨x1, _ | ⟨x2, rest⟩⟩⟩
    · exact absurd rfl h1
    · rfl
    · rfl
    · rcases rest with _ | ⟨x3, rest2⟩
      · rfl
      · exact absurd rfl (h2 x0 x1 x2 x3 rest2)

/-- Every entry of a Costas row is a valid tone. -/
theorem costasRow_le {j : ℕ} : (([4, 2, 5, 6, 1, 3, 0] : List ℕ).getD j 0) ≤ 6 := by
  rcases j with _ | _ | _ | _ | _ | _ | _ | j <;> simp [List.getD]

/-- A message bit is 0 or 1. -/
theorem msgBit_le1 (bytes : List ℕ) (j : ℕ) : msgBit bytes j ≤ 1 :=
  Nat.and_le_right

/-- A parity bit is 0 or 1. -/
theorem parityBit_le1 (bytes : List ℕ) (i : ℕ) : parityBit bytes i ≤ 1 := by
  unfold parityBit
  omega

/-- Every tone value is at most 7. -/
theorem toneAt_le7 (bytes : List ℕ) (p : ℕ) : toneAt bytes p ≤ 7 := by
  unfold toneAt
  split_ifs with hp1 hp2 hp3 hp4
  · calc (costas_normal.getD 0 []).getD p 0 ≤ 6 := costasRow_le
      _ ≤ 7 := by norm_num
  · unfold parityWord
    have b1 := parityBit_le1 bytes (3 * (p - 7))
    have b2 := parityBit_le1 bytes (3 * (p - 7) + 1)
    have b3 := parityBit_le1 bytes (3 * (p - 7) + 2)
    omega
  · calc (costas_normal.getD 1 []).getD (p - 36) 0 ≤ 6 := costasRow_le
      _ ≤ 7 := by norm_num
  · unfold dataWord
    have b1 := msgBit_le1 bytes (3 * (p - 43))
    have b2 := msgBit_le1 bytes (3 * (p - 43) + 1)
    have b3 := msgBit_le1 bytes (3 * (p - 43) + 2)
    omega
  · calc (costas_normal.getD 2 []).getD (p - 72) 0 ≤ 6 := costasRow_le
      _ ≤ 7 := by norm_num

/-- A check on the variables `{87} ∪ T` is violated by the unit buffer at
`c` when the encoder sets parity bit 0 for it and `c` is outside `T`. -/
theorem unit_check (T : Finset (Fin 87)) (c : Fin 87) (hcT : c ∉ T)
    (h1 : parityBit (unitBuf (c : ℕ)) 0 = 1)
    (h0 : ∀ x : Fin 87, x ≠ c → msgBit (unitBuf (c : ℕ)) (x : ℕ) = 0) :
    ((parityBit (unitBuf (c : ℕ)) 0 : ZMod 2)
      + ∑ x ∈ T, (msgBit (unitBuf (c : ℕ)) (x : ℕ) : ZMod 2)) ≠ 0 := by
  have h2 : ∑ x ∈ T, (msgBit (unitBuf (c : ℕ)) (x : ℕ) : ZMod 2) = 0 :=
    Finset.sum_eq_zero (fun x hx => by
      rw [h0 x (fun hc => hcT (hc ▸ hx))]
      simp)
  rw [h1, h2]
  decide

/-- The scan loop emits, in bin order, the candidates of the qualifying
bins, truncated to the space left under the 300 cap. -/
theorem findLoop_eq (df : ℚ) (sdb bdb : ℕ → ℚ) :
    ∀ (bins : List ℕ) (acc : List (ℚ × ℚ)),
      findLoop df sdb bdb bins acc
        = acc ++ ((bins.filter (candP df sdb bdb)).take (300 - acc.length)).map
            (candOf df sdb bdb) := by
  intro bins
  induction bins with
  | nil => intro acc; simp [findLoop]
  | cons b rest ih =>
    intro acc
    by_cases hlen : acc.length < 300
    · rw [findLoop, if_pos hlen]
      by_cases h1 : (b : ℚ) * df < 200 ∨ (b : ℚ) * df > 3000
      · rw [if_pos h1, ih]
        have hP : candP df sdb bdb b = false := by
          unfold candP
          rw [decide_eq_true h1]
          rfl
        rw [List.filter_cons_of_neg (by simp [hP])]
      · rw [if_neg h1]
        by_cases h2 : sdb b - bdb b > 3
        · rw [if_pos h2, ih]
          have hP : candP df sdb bdb b = true := by
            unfold candP
            rw [decide_eq_false h1, decide_eq_true h2]
            rfl
          rw [List.filter_cons_of_pos (by simp [hP])]
          have hlen2 : (acc ++ [((b : ℚ) * df, sdb b - bdb b)]).length = acc.length + 1 := by
            simp
          rw [hlen2,
            show 300 - acc.length = (300 - (acc.length + 1)) + 1 by omega,
            List.take_succ_cons, List.map_cons, List.append_assoc]
          rfl
        · rw [if_neg h2, ih]
          have hP : candP df sdb bdb b = false := by
            unfold candP
            rw [decide_eq_false h2]
            rw [Bool.and_false]
          rw [List.filter_cons_of_neg (by simp [hP])]
    · rw [findLoop, if_neg hlen]
      rw [show 300 - acc.length = 0 by omega]
      simp

/-- The LLR at array index `3*i + k`. -/
theorem llrArr_at (symbols : ℕ → ℕ) (i k : ℕ) (hk : k < 3) :
    llrArr symbols (3 * i + k) = if (symbols i >>> (2 - k)) &&& 1 = 1 then 2 else -2 := by
  unfold llrArr
  have h1 : (3 * i + k) / 3 = i := by omega
  have h2 : (3 * i + k) % 3 = k := by omega
  rw [h1, h2]


/-! ## Claim theorems -/

/-- C1: the encoder's parity generation cannot satisfy the JS8 parity
graph.  The `Nm` adjacency tables are only declared `extern` in
`bp_decoder.h`; their values are not in the repository, so check 0 is
modelled from the spec (§3, §4.4): it involves at most 7 variables, and
by the staircase structure its variables are parity variable 87 plus a
set `T` of at most 6 message variables.  For every such `T` there is an
11-byte message buffer whose codeword (message bits, then the parity bits
computed by `js8_encode_message` via `get_parity_bit`) violates the
check: the XOR over its variables — `parityBit bytes 0` plus the message
bits in `T`, computed in `ZMod 2` — is not 0.  The placeholder
`get_parity_bit` row 0 taps 29 message bits, which no degree-≤7 check can
reproduce, exactly as the source comment ("will generate incorrect
parity") and spec §9 admit. -/
theorem C1_no_degree7_check0_satisfied : ∀ T : Finset (Fin 87), T.card ≤ 6 →
    ∃ bytes : List ℕ, bytes.length = 11 ∧ (∀ b ∈ bytes, b < 256) ∧
      ((parityBit bytes 0 : ZMod 2) + ∑ j ∈ T, (msgBit bytes (j : ℕ) : ZMod 2)) ≠ 0 := by
  intro T hT
  have hS : ∃ j ∈ ({0, 3, 6, 9, 12, 15, 18, 21} : Finset (Fin 87)), j ∉ T := by
    by_contra h
    push_neg at h
    have hsub : ({0, 3, 6, 9, 12, 15, 18, 21} : Finset (Fin 87)) ⊆ T := fun x hx => h x hx
    have hle := Finset.card_le_card hsub
    have hcard : ({0, 3, 6, 9, 12, 15, 18, 21} : Finset (Fin 87)).card = 8 := by decide
    omega
  obtain ⟨j, hjS, hjT⟩ := hS
  refine ⟨unitBuf (j : ℕ), by simp [unitBuf], ?_, ?_⟩
  · intro b hb
    simp only [unitBuf, List.mem_map, List.mem_range] at hb
    obtain ⟨k, _, hk⟩ := hb
    have hpow : (2 : ℕ) ^ (7 - (j : ℕ) % 8) ≤ 2 ^ 7 := Nat.pow_le_pow_right (by norm_num) (by omega)
    split at hk <;> omega
  · exact unit_check T j hjT (by fin_cases hjS <;> decide) (by fin_cases hjS <;> decide)

/-- C1 witness: the empty message-variable set, discharging the
cardinality hypothesis at a concrete input. -/
theorem C1_witness : ((∅ : Finset (Fin 87)).card ≤ 6) ∧
    ∃ bytes : List ℕ, bytes.length = 11 ∧ (∀ b ∈ bytes, b < 256) ∧
      ((parityBit bytes 0 : ZMod 2)
        + ∑ j ∈ (∅ : Finset (Fin 87)), (msgBit bytes (j : ℕ) : ZMod 2)) ≠ 0 :=
  ⟨by decide, C1_no_degree7_check0_satisfied ∅ (by decide)⟩

/-- C2 counterexample: for the all-zero 11-byte buffer (the spec's own S1
vector), `compute_crc12` of the buffer is 42, and recomputing
`compute_crc12` over the buffer with that value embedded in the CRC field
yields 266, not 42. -/
theorem C2_counterexample :
    compute_crc12 (embed_crc (List.replicate 11 0) (compute_crc12 (List.replicate 11 0)))
      ≠ 42 := by
  decide

/-- C2 amended: embedding `v = compute_crc12 buffer` into the CRC field
of a buffer whose CRC field (byte 9 bits 0-4, byte 10 bits 1-7) is zero
is lossless — reading the field back from the framed buffer returns
exactly `v`.  (Recomputing `compute_crc12` over the framed buffer does
not yield 42; see the counterexample.) -/
theorem C2_crc_field_roundtrip (buf : List ℕ) (hlen : buf.length = 11)
    (_hbytes : ∀ b ∈ buf, b < 256)
    (h9 : buf.getD 9 0 &&& 0x1F = 0) (_h10 : buf.getD 10 0 &&& 0xFE = 0) :
    extract_crc (embed_crc buf (compute_crc12 buf)) = compute_crc12 buf := by
  set v := compute_crc12 buf with hv
  have hvlt : v < 4096 := compute_crc12_lt buf
  have htake : (buf.take 9).length = 9 := by simp [hlen]
  have h9e : (embed_crc buf v).getD 9 0 = buf.getD 9 0 ||| ((v >>> 7) &&& 0x1F) := by
    unfold embed_crc
    rw [List.getD_eq_getElem?_getD, List.getElem?_append_right (by omega)]
    simp [htake]
  have h10e : (embed_crc buf v).getD 10 0 = (v &&& 0x7F) <<< 1 := by
    unfold embed_crc
    rw [List.getD_eq_getElem?_getD, List.getElem?_append_right (by omega)]
    simp [htake]
  unfold extract_crc
  rw [h9e, h10e]
  have e1 : (v >>> 7) &&& 0x1F = v / 128 := by
    have g1 : v >>> 7 = v / 128 := by rw [Nat.shiftRight_eq_div_pow]
    have g2 : (0x1F : ℕ) = 2 ^ 5 - 1 := by norm_num
    rw [g1, g2, Nat.and_pow_two_sub_one_eq_mod]
    omega
  have e2 : (buf.getD 9 0 ||| (v >>> 7 &&& 0x1F)) &&& 0x1F = v / 128 := by
    rw [Nat.and_distrib_right, h9, e1]
    have g3 : v / 128 &&& 0x1F = v / 128 := by
      rw [show (0x1F : ℕ) = 2 ^ 5 - 1 by norm_num, Nat.and_pow_two_sub_one_eq_mod]
      omega
    simp [g3]
  have e3 : ((v &&& 0x7F) <<< 1) >>> 1 = v % 128 := by
    rw [show (0x7F : ℕ) = 2 ^ 7 - 1 by norm_num, Nat.and_pow_two_sub_one_eq_mod,
      Nat.shiftLeft_eq, Nat.shiftRight_eq_div_pow]
    omega
  rw [e2, e3, Nat.shiftLeft_eq]
  rw [show v / 128 * 2 ^ 7 = 2 ^ 7 * (v / 128) by ring,
    ← Nat.mul_add_lt_is_or (by omega : v % 128 < 2 ^ 7)]
  omega

/-- C2 witness: the all-zero buffer satisfies the field-zero hypotheses
and the embedded value reads back. -/
theorem C2_witness : ((List.replicate 11 (0 : ℕ)).getD 9 0 &&& 0x1F = 0) ∧
    extract_crc (embed_crc (List.replicate 11 0) (compute_crc12 (List.replicate 11 0)))
      = compute_crc12 (List.replicate 11 0) :=
  ⟨by decide, C2_crc_field_roundtrip (List.replicate 11 0) (by decide)
    (by decide) (by decide) (by decide)⟩

/-- C3 counterexample: a candidate with enough data, strong sync (2 >
1.5), successful symbol extraction, and a failed BP decode (status -1)
contributes a `JS8 SYNC ... (decode failed)` entry and makes the returned
count 1 — it is not skipped silently. -/
theorem C3_counterexample :
    decode_buffer 10 [oc0]
      = (1, [⟨EntryKind.decodeFailed, 5, -500, 0, 20⟩]) := by
  norm_num [decode_buffer, decodeLoop, processCandidate, oc0, ASYNCMIN, ratTrunc]

/-- C3 amended: during one `decode_buffer` call, a candidate contributes
no entry exactly when it has too little downsampled data or its best
Costas sync score is at most `ASYNCMIN`; a strong-sync candidate always
contributes exactly one entry — a diagnostic `decode failed` entry when
BP fails, a diagnostic `symbol extraction failed` entry when extraction
fails.  No CRC check exists in `decode_buffer`. -/
theorem C3_failed_candidates_emit_entries (oc : CandOutcome) :
    ((processCandidate oc).length
        = if oc.enoughData = true ∧ oc.bestSync > ASYNCMIN then 1 else 0) ∧
    (oc.enoughData = true → oc.bestSync > ASYNCMIN → oc.extractOk = true → oc.bpResult < 0 →
      (processCandidate oc).map DecEntry.kind = [EntryKind.decodeFailed]) ∧
    (oc.enoughData = true → oc.bestSync > ASYNCMIN → oc.extractOk = false →
      (processCandidate oc).map DecEntry.kind = [EntryKind.extractFailed]) := by
  unfold processCandidate
  refine ⟨?_, ?_, ?_⟩
  · split_ifs <;> simp_all
  · intro h1 h2 h3 h4
    rw [if_neg (by simp [h1]), if_pos h2, if_pos h3, if_neg (by omega)]
    rfl
  · intro h1 h2 h3
    rw [if_neg (by simp [h1]), if_pos h2, if_neg (by simp [h3])]
    rfl

/-- C3 witness: the failed-BP candidate `oc0` emits a `decodeFailed`
entry. -/
theorem C3_witness :
    (processCandidate oc0).map DecEntry.kind = [EntryKind.decodeFailed] :=
  (C3_failed_candidates_emit_entries oc0).2.1 rfl (by norm_num [oc0, ASYNCMIN]) rfl
    (by norm_num [oc0])

/-- C4: for twelve in-alphabet characters and any type, the packed frame
has 11 bytes; bytes `3k, 3k+1, 3k+2` recombine big-endian (weights
65536, 256, 1) to `word4` of the four character codes of group `k`;
byte 9's top three bits are `type & 7`; the CRC field (byte 9's bottom 5
bits, byte 10 shifted right by one) holds the CRC computed over the
buffer with the field still zero; and byte 10's last bit is unused
(zero). -/
theorem C4_frame_layout {c0 c1 c2 c3 c4 c5 c6 c7 c8 c9 c10 c11 : Char}
    {a0 a1 a2 a3 a4 a5 a6 a7 a8 a9 a10 a11 : ℕ} (type : ℕ)
    (h0 : alphabetWord? c0 = some a0) (h1 : alphabetWord? c1 = some a1)
    (h2 : alphabetWord? c2 = some a2) (h3 : alphabetWord? c3 = some a3)
    (h4 : alphabetWord? c4 = some a4) (h5 : alphabetWord? c5 = some a5)
    (h6 : alphabetWord? c6 = some a6) (h7 : alphabetWord? c7 = some a7)
    (h8 : alphabetWord? c8 = some a8) (h9 : alphabetWord? c9 = some a9)
    (h10 : alphabetWord? c10 = some a10) (h11 : alphabetWord? c11 = some a11) :
    ∃ B, packChars? [c0, c1, c2, c3, c4, c5, c6, c7, c8, c9, c10, c11] = some B ∧
      (frameBytes B type).length = 11 ∧
      ((frameBytes B type).getD 0 0 * 65536 + (frameBytes B type).getD 1 0 * 256
        + (frameBytes B type).getD 2 0 = word4 a0 a1 a2 a3) ∧
      ((frameBytes B type).getD 3 0 * 65536 + (frameBytes B type).getD 4 0 * 256
        + (frameBytes B type).getD 5 0 = word4 a4 a5 a6 a7) ∧
      ((frameBytes B type).getD 6 0 * 65536 + (frameBytes B type).getD 7 0 * 256
        + (frameBytes B type).getD 8 0 = word4 a8 a9 a10 a11) ∧
      ((frameBytes B type).getD 9 0 >>> 5 = type &&& 7) ∧
      (extract_crc (frameBytes B type)
        = compute_crc12 (B ++ [(type &&& 0x07) <<< 5, 0])) ∧
      ((frameBytes B type).getD 10 0 &&& 1 = 0) := by
  refine ⟨_, packChars?_twelve h0 h1 h2 h3 h4 h5 h6 h7 h8 h9 h10 h11,
    ?_, ?_, ?_, ?_, ?_, ?_, ?_⟩
  · simp [frameBytes, wordBytes]
  · simp only [frameBytes, wordBytes, List.cons_append, List.nil_append, List.getD_cons_zero,
      List.getD_cons_succ]
    exact bytes_recomb (word4_lt (alphabetWord?_lt h0) (alphabetWord?_lt h1)
      (alphabetWord?_lt h2) (alphabetWord?_lt h3))
  · simp only [frameBytes, wordBytes, List.cons_append, List.nil_append, List.getD_cons_zero,
      List.getD_cons_succ]
    exact bytes_recomb (word4_lt (alphabetWord?_lt h4) (alphabetWord?_lt h5)
      (alphabetWord?_lt h6) (alphabetWord?_lt h7))
  · simp only [frameBytes, wordBytes, List.cons_append, List.nil_append, List.getD_cons_zero,
      List.getD_cons_succ]
    exact bytes_recomb (word4_lt (alphabetWord?_lt h8) (alphabetWord?_lt h9)
      (alphabetWord?_lt h10) (alphabetWord?_lt h11))
  · simp only [frameBytes, wordBytes, List.cons_append, List.nil_append, List.getD_cons_zero,
      List.getD_cons_succ]
    exact byte9_shift (Nat.and_lt_two_pow (n := 5) _ (by norm_num)) type
  · simp only [extract_crc, frameBytes, wordBytes, List.cons_append, List.nil_append,
      List.getD_cons_zero, List.getD_cons_succ]
    rw [byte9_low5 (Nat.and_lt_two_pow (n := 5) _ (by norm_num)) type, shiftl1_shiftr1]
    exact split_5_7 (compute_crc12_lt _)
  · simp only [frameBytes, wordBytes, List.cons_append, List.nil_append, List.getD_cons_zero,
      List.getD_cons_succ]
    exact shiftl1_even _

/-- C4 witness: the characters of "HELLO-WORLD0" are in the alphabet (the
code of H is 17) and the frame exists. -/
theorem C4_witness : (alphabetWord? 'H' = some 17) ∧
    ∃ B, packChars? ['H', 'E', 'L', 'L', 'O', '-', 'W', 'O', 'R', 'L', 'D', '0']
      = some B := by
  refine ⟨by decide, ?_⟩
  obtain ⟨B, hB, -⟩ := @C4_frame_layout 'H' 'E' 'L' 'L' 'O' '-' 'W' 'O' 'R' 'L' 'D' '0'
    17 14 21 21 24 62 32 24 27 21 13 0 3 (by decide) (by decide) (by decide) (by decide)
    (by decide) (by decide) (by decide) (by decide) (by decide) (by decide)
    (by decide) (by decide)
  exact ⟨B, hB⟩

/-- C5: for twelve in-alphabet characters and any type,
`js8_encode_message` returns 79 and a 79-entry tone list with every entry
in `[0, 7]` and the three Costas rows at positions 0-6, 36-42 and 72-78
(the two 29-entry runs in between hold the parity and data words). -/
theorem C5_tone_list {c0 c1 c2 c3 c4 c5 c6 c7 c8 c9 c10 c11 : Char}
    {a0 a1 a2 a3 a4 a5 a6 a7 a8 a9 a10 a11 : ℕ} (type : ℕ) (tones0 : List ℤ)
    (h0 : alphabetWord? c0 = some a0) (h1 : alphabetWord? c1 = some a1)
    (h2 : alphabetWord? c2 = some a2) (h3 : alphabetWord? c3 = some a3)
    (h4 : alphabetWord? c4 = some a4) (h5 : alphabetWord? c5 = some a5)
    (h6 : alphabetWord? c6 = some a6) (h7 : alphabetWord? c7 = some a7)
    (h8 : alphabetWord? c8 = some a8) (h9 : alphabetWord? c9 = some a9)
    (h10 : alphabetWord? c10 = some a10) (h11 : alphabetWord? c11 = some a11) :
    ∃ lst, js8_encode_message [c0, c1, c2, c3, c4, c5, c6, c7, c8, c9, c10, c11] type tones0
        = (79, lst) ∧
      lst.length = 79 ∧
      (∀ p < 79, 0 ≤ lst.getD p 0 ∧ lst.getD p 0 ≤ 7) ∧
      (∀ j < 7, lst.getD j 0 = ((costas_normal.getD 0 []).getD j 0 : ℤ)
        ∧ lst.getD (36 + j) 0 = ((costas_normal.getD 1 []).getD j 0 : ℤ)
        ∧ lst.getD (72 + j) 0 = ((costas_normal.getD 2 []).getD j 0 : ℤ)) := by
  have hpack := packChars?_twelve h0 h1 h2 h3 h4 h5 h6 h7 h8 h9 h10 h11
  have henc : js8_encode_message [c0, c1, c2, c3, c4, c5, c6, c7, c8, c9, c10, c11] type tones0
      = (79, (List.range 79).map (fun p => (toneAt (frameBytes (wordBytes (word4 a0 a1 a2 a3)
          ++ wordBytes (word4 a4 a5 a6 a7) ++ wordBytes (word4 a8 a9 a10 a11)) type) p : ℤ))) := by
    simp [js8_encode_message, hpack]
  refine ⟨_, henc, ?_, ?_, ?_⟩
  · simp
  · intro p hp
    have hget : ((List.range 79).map
        (fun q => (toneAt (frameBytes (wordBytes (word4 a0 a1 a2 a3)
          ++ wordBytes (word4 a4 a5 a6 a7) ++ wordBytes (word4 a8 a9 a10 a11)) type) q : ℤ))).getD p 0
        = (toneAt (frameBytes (wordBytes (word4 a0 a1 a2 a3)
          ++ wordBytes (word4 a4 a5 a6 a7) ++ wordBytes (word4 a8 a9 a10 a11)) type) p : ℤ) := by
      rw [List.getD_eq_getElem?_getD]
      simp [List.getElem?_map, List.getElem?_range, hp]
    rw [hget]
    constructor
    · positivity
    · exact_mod_cast toneAt_le7 _ p
  · intro j hj
    have hget : ∀ q, q < 79 → ((List.range 79).map
        (fun r => (toneAt (frameBytes (wordBytes (word4 a0 a1 a2 a3)
          ++ wordBytes (word4 a4 a5 a6 a7) ++ wordBytes (word4 a8 a9 a10 a11)) type) r : ℤ))).getD q 0
        = (toneAt (frameBytes (wordBytes (word4 a0 a1 a2 a3)
          ++ wordBytes (word4 a4 a5 a6 a7) ++ wordBytes (word4 a8 a9 a10 a11)) type) q : ℤ) := by
      intro q hq
      rw [List.getD_eq_getElem?_getD]
      simp [List.getElem?_map, List.getElem?_range, hq]
    refine ⟨?_, ?_, ?_⟩
    · rw [hget j (by omega)]
      unfold toneAt
      rw [if_pos (by omega : j < 7)]
    · rw [hget (36 + j) (by omega)]
      unfold toneAt
      rw [if_neg (by omega), if_neg (by omega), if_pos (by omega)]
      norm_num
    · rw [hget (72 + j) (by omega)]
      unfold toneAt
      rw [if_neg (by omega), if_neg (by omega), if_neg (by omega), if_neg (by omega)]
      norm_num

/-- C5 witness: encoding "HELLO-WORLD0" with type 3 returns 79 and a
79-entry list. -/
theorem C5_witness : (alphabetWord? 'H' = some 17) ∧
    ∃ lst, js8_encode_message ['H', 'E', 'L', 'L', 'O', '-', 'W', 'O', 'R', 'L', 'D', '0'] 3 []
      = (79, lst) ∧ lst.length = 79 := by
  refine ⟨by decide, ?_⟩
  obtain ⟨lst, he, hl, -⟩ := @C5_tone_list 'H' 'E' 'L' 'L' 'O' '-' 'W' 'O' 'R' 'L' 'D' '0'
    17 14 21 21 24 62 32 24 27 21 13 0 3 [] (by decide) (by decide) (by decide) (by decide)
    (by decide) (by decide) (by decide) (by decide) (by decide) (by decide)
    (by decide) (by decide)
  exact ⟨lst, he, hl⟩


/-- C6 counterexample: with all eight tone powers equal (so the hard
symbol, ties going to tone 0, is 0), the spec's log-ratio LLR for bit 0
is `log 4 − log 4 = 0` (clipped: still 0), but the code emits -2.  The
demodulator does not compute the claimed soft LLR. -/
theorem C6_counterexample :
    ((llrArr (fun _ => 0) 0 : ℚ) : ℝ) ≠ specLLR (fun _ => 1) 0 := by
  have h1 : llrArr (fun _ => 0) 0 = -2 := by decide
  have h2 : specLLR (fun _ => 1) 0 = 0 := by
    unfold specLLR
    have e1 : ∑ t ∈ Finset.univ.filter (fun t : Fin 8 => ((t : ℕ) >>> (2 - 0)) &&& 1 = 1),
        (1 : ℝ) = 4 := by
      rw [Finset.sum_const,
        show (Finset.univ.filter (fun t : Fin 8 => ((t : ℕ) >>> (2 - 0)) &&& 1 = 1)).card = 4
          from by decide]
      norm_num
    have e2 : ∑ t ∈ Finset.univ.filter (fun t : Fin 8 => ¬(((t : ℕ) >>> (2 - 0)) &&& 1 = 1)),
        (1 : ℝ) = 4 := by
      rw [Finset.sum_const,
        show (Finset.univ.filter (fun t : Fin 8 => ¬(((t : ℕ) >>> (2 - 0)) &&& 1 = 1))).card = 4
          from by decide]
      norm_num
    rw [e1, e2, sub_self]
    norm_num [clip19]
  rw [h1, h2]
  norm_num

/-- C6 amended: for each data symbol the demodulator emits three hard
LLRs of magnitude exactly 2, in symbol-major MSB-first order: the sign
pattern of `llr[3i], llr[3i+1], llr[3i+2]` (weights 4, 2, 1) reconstructs
symbol `i`.  Correlation powers, logarithms and the ±19 clip are not
involved. -/
theorem C6_hard_llr (symbols : ℕ → ℕ) (i : ℕ) (hs : symbols i < 8) :
    ((if llrArr symbols (3 * i) > 0 then 4 else 0)
      + (if llrArr symbols (3 * i + 1) > 0 then 2 else 0)
      + (if llrArr symbols (3 * i + 2) > 0 then 1 else 0) = symbols i) ∧
    (∀ k < 3, |llrArr symbols (3 * i + k)| = 2) := by
  have e0 : llrArr symbols (3 * i) = if (symbols i >>> 2) &&& 1 = 1 then 2 else -2 := by
    have h := llrArr_at symbols i 0 (by norm_num)
    simpa using h
  have e1 := llrArr_at symbols i 1 (by norm_num)
  have e2 := llrArr_at symbols i 2 (by norm_num)
  constructor
  · rw [e0, e1, e2]
    have cpos : ∀ x : ℕ, ((if x = 1 then (2 : ℚ) else -2) > 0) ↔ x = 1 := by
      intro x
      by_cases h : x = 1
      · rw [if_pos h]
        exact ⟨fun _ => h, fun _ => by norm_num⟩
      · rw [if_neg h]
        exact ⟨fun hc => absurd hc (by norm_num), fun hc => absurd hc h⟩
    simp only [cpos]
    set s := symbols i with hsdef
    interval_cases s <;> decide
  · intro k hk
    rw [llrArr_at symbols i k hk]
    split_ifs <;> norm_num

/-- C6 witness: symbol 5 at position 0 is reconstructed from the LLR
signs. -/
theorem C6_witness : ((fun _ : ℕ => 5) 0 < 8) ∧
    ((if llrArr (fun _ => 5) (3 * 0) > 0 then 4 else 0)
      + (if llrArr (fun _ => 5) (3 * 0 + 1) > 0 then 2 else 0)
      + (if llrArr (fun _ => 5) (3 * 0 + 2) > 0 then 1 else 0) = (fun _ : ℕ => 5) 0) :=
  ⟨by norm_num, (C6_hard_llr (fun _ => 5) 0 (by norm_num)).1⟩

/-- C7 counterexample: for the audio buffer [1, 1, 1], candidate
frequency 7500 Hz, sample rate 12000 Hz, the heterodyned sample at n = 2
has phase π/2, so the code (cos φ + j·sin φ) gives +j while the spec's
`exp(−j·φ)` gives −j.  The code multiplies by `exp(+jφ)`, not the claimed
`exp(−jφ)`. -/
theorem C7_counterexample :
    heterodyne [1, 1, 1] 7500 12000 2 ≠ spec_z [1, 1, 1] 7500 12000 2 := by
  have hphi : 2 * Real.pi * ((7500 : ℝ) - 12000 / 2) * (2 : ℕ) / 12000 = Real.pi / 2 := by
    push_cast
    ring
  have hget : (([1, 1, 1] : List ℝ).getD 2 0) = 1 := rfl
  unfold heterodyne spec_z
  rw [hphi, hget]
  intro hc
  have him := congrArg Complex.im hc
  simp [Real.sin_pi_div_two, Real.cos_pi_div_two, Complex.exp_im] at him
  have harg : (2 * Real.pi * ((7500 : ℝ) - 12000 / 2) * 2 / 12000 : ℝ) = Real.pi / 2 := by
    ring
  rw [harg, Real.sin_pi_div_two] at him
  norm_num at him

/-- C7 amended: the downsampled sequence has one entry per index
`0, D, 2D, …` below the buffer length, and its `m`-th entry is
`x[mD] · exp(+j·2π·(fc − fs/2)·(mD)/fs)` — the heterodyne with the
positive sign in the exponent. -/
theorem C7_downmix_decimate (x : List ℝ) (fc fs : ℝ) (D : ℕ) (m : ℕ)
    (hm : m < (x.length + D - 1) / D) :
    (downsample_signal x fc fs D).getD m 0
      = (x.getD (m * D) 0 : ℂ)
        * Complex.exp (Complex.I
            * ((2 * Real.pi * (fc - fs / 2) * ((m * D : ℕ) : ℝ) / fs : ℝ) : ℂ)) ∧
    (downsample_signal x fc fs D).length = (x.length + D - 1) / D := by
  constructor
  · have hget : (downsample_signal x fc fs D).getD m 0 = heterodyne x fc fs (m * D) := by
      unfold downsample_signal
      rw [List.getD_eq_getElem?_getD]
      simp [List.getElem?_map, List.getElem?_range, hm]
    rw [hget]
    unfold heterodyne
    have hexp : ∀ z : ℂ, Complex.exp (Complex.I * z)
        = Complex.cos z + Complex.sin z * Complex.I := by
      intro z
      rw [mul_comm, Complex.exp_mul_I]
    rw [hexp, Complex.ofReal_cos, Complex.ofReal_sin]
    ring
  · unfold downsample_signal
    simp

/-- C7 witness: buffer [1, 1, 1] with decimation 2 has 2 output samples;
the entry at m = 1 is the heterodyne of sample 2. -/
theorem C7_witness : (1 < (([1, 1, 1] : List ℝ).length + 2 - 1) / 2) ∧
    ((downsample_signal [1, 1, 1] 7500 12000 2).getD 1 0
      = (([1, 1, 1] : List ℝ).getD (1 * 2) 0 : ℂ)
        * Complex.exp (Complex.I
            * ((2 * Real.pi * ((7500 : ℝ) - (12000 : ℝ) / 2) * ((1 * 2 : ℕ) : ℝ) / 12000 : ℝ) : ℂ)) ∧
    (downsample_signal [1, 1, 1] 7500 12000 2).length
      = (([1, 1, 1] : List ℝ).length + 2 - 1) / 2) :=
  ⟨by norm_num, C7_downmix_decimate [1, 1, 1] 7500 12000 2 1 (by norm_num)⟩

/-- C8: whatever the per-bin signal and baseline dB levels, the candidate
finder emits at most 300 candidates, every emitted frequency lies in
[200, 3000] Hz, and every emitted SNR exceeds 3 dB. -/
theorem C8_candidate_bounds (fs : ℚ) (sdb bdb : ℕ → ℚ) :
    (find_candidates fs sdb bdb).length ≤ 300 ∧
    ∀ c ∈ find_candidates fs sdb bdb, 200 ≤ c.1 ∧ c.1 ≤ 3000 ∧ c.2 > 3 := by
  unfold find_candidates
  rw [findLoop_eq]
  simp only [List.nil_append, List.length_nil, Nat.sub_zero]
  constructor
  · rw [List.length_map, List.length_take]
    omega
  · intro c hc
    simp only [List.mem_map] at hc
    obtain ⟨b, hb, rfl⟩ := hc
    have hbf : b ∈ (List.range 2048).filter (candP (fs / 2048) sdb bdb) :=
      List.mem_of_mem_take hb
    have hP := List.of_mem_filter hbf
    unfold candP at hP
    simp only [Bool.and_eq_true, Bool.not_eq_true', decide_eq_false_iff_not,
      decide_eq_true_eq] at hP
    obtain ⟨h1, h2⟩ := hP
    push_neg at h1
    exact ⟨by simpa [candOf] using h1.1, by simpa [candOf] using h1.2,
      by simpa [candOf] using h2⟩

/-- C8 witness: at sample rate 12000 with the concrete levels `sdb0`,
`bdb0`, the finder emits at most 300 candidates. -/
theorem C8_witness : (find_candidates 12000 sdb0 bdb0).length ≤ 300 :=
  (C8_candidate_bounds 12000 sdb0 bdb0).1

/-- C9 counterexample: with signal levels 4 dB at bin 40 and 5 dB at
bin 41 over a zero baseline (both bins in band at fs = 12000), the finder
emits the 4-dB candidate before the 5-dB one — the list is not sorted by
descending SNR.  There is no sorting step in `find_candidates`. -/
theorem C9_counterexample :
    ¬ List.Sorted (fun x y : ℚ × ℚ => x.2 ≥ y.2) (find_candidates 12000 sdb0 bdb0) := by
  have hfilter : (List.range 2048).filter (candP (12000 / 2048) sdb0 bdb0) = [40, 41] := by
    have hcong : ∀ b ∈ List.range 2048,
        candP (12000 / 2048) sdb0 bdb0 b = (b == 40 || b == 41) := by
      intro b _
      by_cases h40 : b = 40
      · subst h40
        unfold candP
        rw [decide_eq_false (by norm_num :
            ¬(((40 : ℕ) : ℚ) * (12000 / 2048) < 200 ∨ ((40 : ℕ) : ℚ) * (12000 / 2048) > 3000)),
          decide_eq_true (by norm_num [sdb0, bdb0] : sdb0 40 - bdb0 40 > 3)]
        rfl
      · by_cases h41 : b = 41
        · subst h41
          unfold candP
          rw [decide_eq_false (by norm_num :
              ¬(((41 : ℕ) : ℚ) * (12000 / 2048) < 200 ∨ ((41 : ℕ) : ℚ) * (12000 / 2048) > 3000)),
            decide_eq_true (by norm_num [sdb0, bdb0] : sdb0 41 - bdb0 41 > 3)]
          rfl
        · have hsnr : ¬(sdb0 b - bdb0 b > 3) := by
            simp [sdb0, bdb0, h40, h41]
          unfold candP
          rw [decide_eq_false hsnr, Bool.and_false]
          simp [h40, h41]
    rw [List.filter_congr hcong]
    decide
  unfold find_candidates
  rw [findLoop_eq, hfilter]
  norm_num [candOf, List.sorted_cons, sdb0, bdb0]

/-- C9 amended: the candidate list is emitted in ascending bin order, so
its frequencies are strictly increasing; it is not sorted by SNR. -/
theorem C9_ascending_frequency_order (fs : ℚ) (h : 0 < fs) (sdb bdb : ℕ → ℚ) :
    List.Sorted (fun x y : ℚ × ℚ => x.1 < y.1) (find_candidates fs sdb bdb) := by
  unfold find_candidates
  rw [findLoop_eq]
  simp only [List.nil_append, List.length_nil, Nat.sub_zero]
  have hdf : 0 < fs / 2048 := by positivity
  have h0 : (List.range 2048).Pairwise (· < ·) := List.pairwise_lt_range 2048
  have h1 : ((List.range 2048).filter (candP (fs / 2048) sdb bdb)).Pairwise (· < ·) :=
    h0.filter _
  have h2 : (((List.range 2048).filter (candP (fs / 2048) sdb bdb)).take 300).Pairwise
      (· < ·) :=
    h1.sublist (List.take_sublist 300 _)
  rw [List.Sorted, List.pairwise_map]
  refine h2.imp ?_
  intro a b hab
  simp only [candOf]
  have hcast : (a : ℚ) < (b : ℚ) := by exact_mod_cast hab
  exact mul_lt_mul_of_pos_right hcast hdf

/-- C9 amended witness: the positivity hypothesis discharged at
fs = 12000 with the concrete levels. -/
theorem C9_witness : (0 : ℚ) < 12000 ∧
    List.Sorted (fun x y : ℚ × ℚ => x.1 < y.1) (find_candidates 12000 sdb0 bdb0) :=
  ⟨by norm_num, C9_ascending_frequency_order 12000 (by norm_num) sdb0 bdb0⟩

/-- C10: a 12-character message containing an out-of-alphabet character
makes `js8_encode_message` return -1 with the caller's 79-entry tone
buffer set entirely to zero: the `memset` runs before `alphabet_word`
throws, and no Costas or data tone is written on the error path. -/
theorem C10_invalid_char_clears_tones (message : List Char) (type : ℕ) (tones0 : List ℤ)
    (hlen : message.length = 12) (hbad : ∃ ch ∈ message, alphabetWord? ch = none) :
    js8_encode_message message type tones0 = (-1, List.replicate 79 0) := by
  unfold js8_encode_message
  rw [if_neg (by omega : ¬ message.length ≠ 12), packChars?_none hbad]

/-- C10 witness: "HELLO WORLD!" (space and '!' are not in the alphabet)
with non-trivial initial buffer contents. -/
theorem C10_witness :
    js8_encode_message ['H', 'E', 'L', 'L', 'O', ' ', 'W', 'O', 'R', 'L', 'D', '!'] 3 [5, 5]
      = (-1, List.replicate 79 0) :=
  C10_invalid_char_clears_tones _ 3 [5, 5] (by decide) ⟨' ', by decide, by decide⟩

end JS8
